import Mathlib

/-!
Shallow embedding of the execution layer of the renoir dataflow engine: the start
operator (src/src/operator/source/start.rs), the network channel layer
(src/src/network/network_channel.rs) and the runtime configuration (src/src/config.rs),
together with proofs about their behaviour. Types that the sources use but that live
in modules outside the verified set (coordinates, stream elements, channels, the
multiplexer, the profiler) are modelled from the specification and are marked as such.
-/

/-- Modelled from the spec: `Coord` (scheduler module, not among the verified
sources) is the triple (block, host, replica) identifying a running replica. -/
structure Coord where
  block_id : Nat
  host_id : Nat
  replica_id : Nat
  deriving DecidableEq

/-- Modelled from the spec: `ReceiverEndpoint` (network module) is the address of an
inbox: the destination `Coord` plus the source block id. -/
structure ReceiverEndpoint where
  coord : Coord
  prev_block_id : Nat
  deriving DecidableEq

/-- Modelled from the spec: `StreamElement<T>` (operator module), the tagged unit
flowing through operators. Timestamps are modelled as integers. -/
inductive StreamElement (α : Type) where
  | Item (x : α)
  | Timestamped (x : α) (ts : Int)
  | Watermark (ts : Int)
  | FlushBatch
  | FlushAndRestart
  | End
  | Terminate
  deriving DecidableEq

/-- Modelled from the spec: `NetworkMessage<T>` (network module), a batch of stream
elements together with the sender's coordinate. -/
structure NetworkMessage (α : Type) where
  sender : Coord
  elements : List (StreamElement α)
  deriving DecidableEq

/-- `NetworkMessage::num_items`: the number of elements in the batch. -/
def NetworkMessage.num_items {α : Type} (m : NetworkMessage α) : Nat :=
  m.elements.length

/-- Modelled from the spec: the sending half of a bounded channel (`crate::channel`,
not among the verified sources); it records whether the receiving half is alive. -/
structure Sender (α : Type) where
  connected : Bool
  deriving DecidableEq

/-- Modelled from the spec: the receiving half of a bounded channel: a FIFO queue
with its declared capacity, and whether the sending half is still alive. -/
structure Receiver (α : Type) where
  capacity : Nat
  queue : List α
  connected : Bool
  deriving DecidableEq

/-- Modelled from the spec: `channel::bounded(cap)` creates a connected pair around
an empty FIFO of the given capacity. -/
def Channel.bounded {α : Type} (cap : Nat) : Sender α × Receiver α :=
  (⟨true⟩, ⟨cap, [], true⟩)

/-- Modelled from the spec: failure of a blocking receive. -/
inductive RecvError where
  | disconnected
  deriving DecidableEq

/-- Modelled from the spec: failure of a non-blocking receive. -/
inductive TryRecvError where
  | empty
  | disconnected
  deriving DecidableEq

/-- Modelled from the spec: failure of a receive with a timeout. -/
inductive RecvTimeoutError where
  | timeout
  | disconnected
  deriving DecidableEq

/-- Modelled from the spec: blocking receive; `none` stands for a receive that never
completes because the queue is empty while the sender is still alive. -/
def Receiver.recv {α : Type} (r : Receiver α) : Option (Except RecvError (α × Receiver α)) :=
  match r.queue with
  | x :: q => some (Except.ok (x, { r with queue := q }))
  | [] => if r.connected then none else some (Except.error RecvError.disconnected)

/-- Modelled from the spec: non-blocking receive. -/
def Receiver.try_recv {α : Type} (r : Receiver α) : Except TryRecvError (α × Receiver α) :=
  match r.queue with
  | x :: q => Except.ok (x, { r with queue := q })
  | [] => if r.connected then Except.error TryRecvError.empty
          else Except.error TryRecvError.disconnected

/-- Modelled from the spec: receive with a timeout, under the assumption that no
message arrives during the wait. -/
def Receiver.recv_timeout {α : Type} (r : Receiver α) : Except RecvTimeoutError (α × Receiver α) :=
  match r.queue with
  | x :: q => Except.ok (x, { r with queue := q })
  | [] => if r.connected then Except.error RecvTimeoutError.timeout
          else Except.error RecvTimeoutError.disconnected

/-- Modelled from the spec: the profiler keeps per-channel counters; the embedding
records the calls made to it. -/
inductive ProfilerEvent where
  | items_in (sender : Coord) (dst : Coord) (n : Nat)
  | items_out (sender : Coord) (dst : Coord) (n : Nat)
  deriving DecidableEq

/-- src/src/network/network_channel.rs: the capacity of the in-buffer. -/
def CHANNEL_CAPACITY : Nat := 64

/-- src/src/network/network_channel.rs `NetworkReceiver`: the receiving end of a
connection between two replicas. -/
structure NetworkReceiver (α : Type) where
  receiver_endpoint : ReceiverEndpoint
  receiver : Receiver (NetworkMessage α)
  deriving DecidableEq

/-- `NetworkReceiver::new`: the underlying channel is built with `CHANNEL_CAPACITY`. -/
def NetworkReceiver.new {α : Type} (receiver_endpoint : ReceiverEndpoint) : NetworkReceiver α :=
  { receiver_endpoint := receiver_endpoint
    receiver := (Channel.bounded CHANNEL_CAPACITY).2 }

/-- `local_channel` in src/src/network/network_channel.rs: builds the channel with
`CHANNEL_CAPACITY`, ignoring its `size` argument. (The function body's return
expression is left incomplete in the source; the channel construction, which is the
part the capacity claim is about, is what is modelled here.) -/
def local_channel {α : Type} (size : Nat) : Sender (NetworkMessage α) × Receiver (NetworkMessage α) :=
  Channel.bounded CHANNEL_CAPACITY

/-- `NetworkReceiver::profile_message`: on a successfully received message, record
`items_in(message.sender, receiver_endpoint.coord, message.num_items())` on the
profiler; the message is passed through unchanged. -/
def NetworkReceiver.profile_message {α : Type} {E : Type} (r : NetworkReceiver α)
    (message : Except E (NetworkMessage α × Receiver (NetworkMessage α))) :
    Except E (NetworkMessage α × Receiver (NetworkMessage α)) × List ProfilerEvent :=
  match message with
  | Except.ok (m, rc) =>
    (Except.ok (m, rc), [ProfilerEvent.items_in m.sender r.receiver_endpoint.coord m.num_items])
  | Except.error e => (Except.error e, [])

/-- `NetworkReceiver::recv`: receive from the underlying channel, profiling. -/
def NetworkReceiver.recv {α : Type} (r : NetworkReceiver α) :
    Option (Except RecvError (NetworkMessage α × Receiver (NetworkMessage α)) × List ProfilerEvent) :=
  (r.receiver.recv).map (fun res => r.profile_message res)

/-- `NetworkReceiver::try_recv`: non-blocking receive, profiling. -/
def NetworkReceiver.try_recv {α : Type} (r : NetworkReceiver α) :
    Except TryRecvError (NetworkMessage α × Receiver (NetworkMessage α)) × List ProfilerEvent :=
  r.profile_message r.receiver.try_recv

/-- `NetworkReceiver::recv_timeout`: receive with a timeout, profiling. -/
def NetworkReceiver.recv_timeout {α : Type} (r : NetworkReceiver α) :
    Except RecvTimeoutError (NetworkMessage α × Receiver (NetworkMessage α)) × List ProfilerEvent :=
  r.profile_message r.receiver.recv_timeout

/-- Modelled from the spec: the multiplexer's sending handle
(src/src/network/multiplexer.rs is not among the verified sources); sending fails,
returning its arguments, exactly when the remote peer has disconnected. -/
structure MultiplexingSender (α : Type) where
  connected : Bool
  deriving DecidableEq

/-- Modelled from the spec: `MultiplexingSender::send`; on failure the error carries
back the `(endpoint, message)` pair that was being sent. -/
def MultiplexingSender.send {α : Type} (s : MultiplexingSender α) (ep : ReceiverEndpoint)
    (m : NetworkMessage α) : Except (ReceiverEndpoint × NetworkMessage α) Unit :=
  if s.connected then Except.ok () else Except.error (ep, m)

/-- Modelled from the spec: `Sender::send` on the bounded channel succeeds (possibly
after blocking) unless the receiving half was dropped, in which case the message is
returned inside the error. -/
def Sender.send {α : Type} (s : Sender α) (x : α) : Except α Unit :=
  if s.connected then Except.ok () else Except.error x

/-- src/src/network/network_channel.rs `NetworkSenderImpl`: local channel or
multiplexed remote connection. -/
inductive NetworkSenderImpl (α : Type) where
  | Local (sender : Sender (NetworkMessage α))
  | Remote (sender : MultiplexingSender α)
  deriving DecidableEq

/-- src/src/network/network_channel.rs `NetworkSender`. -/
structure NetworkSender (α : Type) where
  receiver_endpoint : ReceiverEndpoint
  sender : NetworkSenderImpl α
  deriving DecidableEq

/-- src/src/network/network_channel.rs `NetworkSendError`. -/
inductive NetworkSendError where
  | Disconnected (endpoint : ReceiverEndpoint)
  deriving DecidableEq

/-- Whether the underlying connection of a network sender is still alive. -/
def NetworkSenderImpl.isConnected {α : Type} : NetworkSenderImpl α → Bool
  | NetworkSenderImpl.Local s => s.connected
  | NetworkSenderImpl.Remote s => s.connected

/-- `NetworkSender::send`: records `items_out(message.sender, receiver_endpoint.coord,
message.num_items())` on the profiler, then routes to the local channel or to the
multiplexer, mapping a failure to `Disconnected`. In the remote arm the source maps
the error with `|e| Disconnected(e.0.0)`, the endpoint carried back by the failed
multiplexer send. -/
def NetworkSender.send {α : Type} (s : NetworkSender α) (message : NetworkMessage α) :
    Except NetworkSendError Unit × List ProfilerEvent :=
  (match s.sender with
   | NetworkSenderImpl.Local sender =>
     (sender.send message).mapError (fun _ => NetworkSendError.Disconnected s.receiver_endpoint)
   | NetworkSenderImpl.Remote sender =>
     (sender.send s.receiver_endpoint message).mapError
       (fun e => NetworkSendError.Disconnected e.1),
   [ProfilerEvent.items_out message.sender s.receiver_endpoint.coord message.num_items])

/-- Modelled from the spec: the slice of `ExecutionMetadata` (scheduler module) that
`StartBlock` uses: the replica's coordinate and the total number of upstream
replicas. -/
structure ExecutionMetadata where
  coord : Coord
  num_prev : Nat
  deriving DecidableEq

/-- src/src/operator/source/start.rs `StartBlock`: the start operator's state. The
network receiver is reduced to a presence marker; the stream of batches it will
deliver is passed explicitly to `next`. -/
structure StartBlock (α : Type) where
  metadata : Option ExecutionMetadata
  receiver : Option Unit
  buffer : List (StreamElement α)
  missing_ends : Nat
  deriving DecidableEq

/-- `StartBlock::new`. -/
def StartBlock.new {α : Type} : StartBlock α :=
  { metadata := none, receiver := none, buffer := [], missing_ends := 0 }

/-- `StartBlock::setup`: obtain the receiver from the network, set
`missing_ends := metadata.num_prev`, store the metadata. -/
def StartBlock.setup {α : Type} (s : StartBlock α) (metadata : ExecutionMetadata) :
    StartBlock α :=
  { s with receiver := some (), missing_ends := metadata.num_prev, metadata := some metadata }

/-- The ways `StartBlock::next` fails to produce an element: the `unwrap` on the
metadata, the `unwrap` on the receiver, a receive that can never complete, and the
`expect` that fires when an upstream sent an empty message. -/
inductive NextError where
  | noMetadata
  | noReceiver
  | recvStuck
  | emptyMessage
  deriving DecidableEq

/-- Whether a stream element is the `End` marker (the `matches!` test in `next`). -/
def StreamElement.isEnd {α : Type} : StreamElement α → Bool
  | StreamElement.End => true
  | _ => false

/-- The loop of `StartBlock::next` on the mutable part of the state: with
`missing_ends = 0` the block's own `End` is returned; otherwise, if the buffer is
empty, a batch is received and appended; the front element is popped, and a popped
upstream `End` decrements `missing_ends` and recurses. The recursion is structural
in `missing_ends` because every recursive call decrements it by one. -/
def StartBlock.nextGo {α : Type} :
    Nat → List (StreamElement α) → List (NetworkMessage α) →
    Except NextError (StreamElement α × Nat × List (StreamElement α) × List (NetworkMessage α))
  | 0, buffer, ins => Except.ok (StreamElement.End, 0, buffer, ins)
  | k + 1, buffer, ins =>
    let received : Option (List (StreamElement α) × List (NetworkMessage α)) :=
      if buffer.isEmpty then
        match ins with
        | [] => none
        | msg :: rest => some (buffer ++ msg.elements, rest)
      else some (buffer, ins)
    match received with
    | none => Except.error NextError.recvStuck
    | some (buf, ins') =>
      match buf with
      | [] => Except.error NextError.emptyMessage
      | el :: buf' =>
        if el.isEnd then StartBlock.nextGo k buf' ins'
        else Except.ok (el, k + 1, buf', ins')

/-- `StartBlock::next`: unwrap the metadata; with `missing_ends = 0` return `End`
immediately; otherwise unwrap the receiver and run the pop/receive loop, threading
the resulting buffer and counter back into the state. -/
def StartBlock.next {α : Type} (s : StartBlock α) (ins : List (NetworkMessage α)) :
    Except NextError (StreamElement α × StartBlock α × List (NetworkMessage α)) :=
  match s.metadata with
  | none => Except.error NextError.noMetadata
  | some _ =>
    if s.missing_ends = 0 then Except.ok (StreamElement.End, s, ins)
    else
      match s.receiver with
      | none => Except.error NextError.noReceiver
      | some _ =>
        (StartBlock.nextGo s.missing_ends s.buffer ins).map
          (fun out =>
            match out with
            | (el, k, buf, ins') => (el, { s with missing_ends := k, buffer := buf }, ins'))

/-- `Clone for StartBlock`: cloning an initialized start block aborts (`none`,
the `Cannot clone once initialized` branch); otherwise a fresh, uninitialized block
is produced. -/
def StartBlock.clone {α : Type} (s : StartBlock α) : Option (StartBlock α) :=
  if s.metadata.isSome then none
  else some { metadata := none, receiver := none, buffer := [], missing_ends := 0 }

/-- Repeatedly call `next`, collecting the returned elements up to and including the
first `End`; `none` on a failing call or on fuel exhaustion. -/
def StartBlock.run {α : Type} : Nat → StartBlock α → List (NetworkMessage α) →
    Option (List (StreamElement α))
  | 0, _, _ => none
  | fuel + 1, s, ins =>
    match s.next ins with
    | Except.error _ => none
    | Except.ok (el, s', ins') =>
      if el.isEnd then some [el]
      else (StartBlock.run fuel s' ins').map (fun out => el :: out)

/-- All elements delivered by a list of batches, in order. -/
def flatElems {α : Type} (ins : List (NetworkMessage α)) : List (StreamElement α) :=
  (ins.map (fun m => m.elements)).flatten

/-- The number of `End` markers in a list of elements. -/
def countEnds {α : Type} (es : List (StreamElement α)) : Nat :=
  (es.filter (fun e => e.isEnd)).length

/-- The elements that are not `End` markers, in order. -/
def nonEnds {α : Type} (es : List (StreamElement α)) : List (StreamElement α) :=
  es.filter (fun e => !e.isEnd)

/-- Whether a list of elements is empty or finishes with an `End` marker. -/
def endsLastB {α : Type} : List (StreamElement α) → Bool
  | [] => true
  | [e] => e.isEnd
  | _ :: e :: rest => endsLastB (e :: rest)

/-- The timestamp of a watermark element. -/
def StreamElement.watermarkOf {α : Type} : StreamElement α → Option Int
  | StreamElement.Watermark t => some t
  | _ => none

/-- The watermark timestamps occurring in a list of elements, in order. -/
def watermarks {α : Type} (es : List (StreamElement α)) : List Int :=
  es.filterMap StreamElement.watermarkOf

/-- src/src/config.rs `SSHConfig` (paths are modelled as strings). -/
structure SSHConfig where
  ssh_port : Nat
  username : Option String
  password : Option String
  key_file : Option String
  key_passphrase : Option String
  deriving DecidableEq

/-- src/src/config.rs `HostConfig`. -/
structure HostConfig where
  address : String
  base_port : Nat
  num_cores : Nat
  ssh : SSHConfig
  perf_path : Option String
  deriving DecidableEq

/-- src/src/config.rs `RemoteConfig`. -/
structure RemoteConfig where
  host_id : Option Nat
  hosts : List HostConfig
  tracing_dir : Option String
  cleanup_executable : Bool
  deriving DecidableEq

/-- src/src/config.rs `LocalConfig`. -/
structure LocalConfig where
  num_cores : Nat
  deriving DecidableEq

/-- src/src/config.rs `RuntimeConfig`. -/
inductive RuntimeConfig where
  | Local (config : LocalConfig)
  | Remote (config : RemoteConfig)
  deriving DecidableEq

/-- src/src/config.rs `ConfigError` (the `IO` variant is rendered `ioError`; error
payloads are modelled as their rendered messages). -/
inductive ConfigError where
  | Serialization (msg : String)
  | ioError (msg : String)
  | Invalid (msg : String)
  deriving DecidableEq

/-- A failure of `RuntimeConfig::remote`: either a returned `ConfigError`, or an
abort raised inside `host_id_from_env`. -/
inductive RemoteError where
  | config (e : ConfigError)
  | panicked (msg : String)
  deriving DecidableEq

/-- `HostId::from_str`: the standard unsigned-integer parser, modelled directly on
the character list: a non-empty all-digit string parses to the denoted number,
anything else fails. -/
def HostId.from_str (s : String) : Option Nat :=
  if !s.data.isEmpty && s.data.all (fun c => c.isDigit) then
    some (s.data.foldl (fun n c => n * 10 + (c.toNat - 48)) 0)
  else none

/-- `RuntimeConfig::host_id_from_env`: read `NOIR_HOST_ID`; an absent variable yields
no host id; an unparsable value or a value at least `num_hosts` aborts (modelled as
`Except.error` carrying the abort message). -/
def RuntimeConfig.host_id_from_env (env : Option String) (num_hosts : Nat) :
    Except String (Option Nat) :=
  match env with
  | none => Except.ok none
  | some v =>
    match HostId.from_str v with
    | none => Except.error "Invalid value for environment NOIR_HOST_ID: parse error"
    | some host_id =>
      if host_id ≥ num_hosts then
        Except.error ("Invalid value for environment NOIR_HOST_ID: value too large, max possible is "
          ++ toString (num_hosts - 1))
      else Except.ok (some host_id)

/-- The validation loop inside `RuntimeConfig::remote`: reject the first host that
specifies both an SSH password and an SSH key file. -/
def RuntimeConfig.validateHosts : Nat → List HostConfig → Except ConfigError Unit
  | _, [] => Except.ok ()
  | host_id, host :: rest =>
    if host.ssh.password.isSome && host.ssh.key_file.isSome then
      Except.error (ConfigError.Invalid
        ("Malformed configuration: cannot specify both password and key file on host "
          ++ toString host_id ++ ": " ++ host.address))
    else RuntimeConfig.validateHosts (host_id + 1) rest

/-- `RuntimeConfig::remote` after the configuration has been obtained (reading the
file or the `NOIR_CONFIG` environment variable and parsing the TOML are I/O and are
outside the embedding): validate every host, then resolve the host id from the
`NOIR_HOST_ID` environment value and store it in the configuration. -/
def RuntimeConfig.remote (config : RemoteConfig) (env : Option String) :
    Except RemoteError RuntimeConfig :=
  match RuntimeConfig.validateHosts 0 config.hosts with
  | Except.error e => Except.error (RemoteError.config e)
  | Except.ok _ =>
    match RuntimeConfig.host_id_from_env env config.hosts.length with
    | Except.error msg => Except.error (RemoteError.panicked msg)
    | Except.ok host_id => Except.ok (RuntimeConfig.Remote { config with host_id := host_id })

theorem isEnd_iff {α : Type} {e : StreamElement α} : e.isEnd = true ↔ e = StreamElement.End := by
  cases e <;> simp [StreamElement.isEnd]

theorem countEnds_nil {α : Type} : countEnds ([] : List (StreamElement α)) = 0 := rfl

theorem countEnds_cons_isEnd {α : Type} {e : StreamElement α} (h : e.isEnd = true)
    (es : List (StreamElement α)) : countEnds (e :: es) = countEnds es + 1 := by
  simp [countEnds, List.filter_cons, h]

theorem countEnds_cons_ne {α : Type} {e : StreamElement α} (h : e.isEnd = false)
    (es : List (StreamElement α)) : countEnds (e :: es) = countEnds es := by
  simp [countEnds, List.filter_cons, h]

theorem nonEnds_cons_isEnd {α : Type} {e : StreamElement α} (h : e.isEnd = true)
    (es : List (StreamElement α)) : nonEnds (e :: es) = nonEnds es := by
  simp [nonEnds, List.filter_cons, h]

theorem nonEnds_cons_ne {α : Type} {e : StreamElement α} (h : e.isEnd = false)
    (es : List (StreamElement α)) : nonEnds (e :: es) = e :: nonEnds es := by
  simp [nonEnds, List.filter_cons, h]

theorem endsLastB_cons_of_ne {α : Type} (e : StreamElement α) :
    ∀ {es : List (StreamElement α)}, es ≠ [] → endsLastB (e :: es) = endsLastB es := by
  intro es h
  cases es with
  | nil => exact absurd rfl h
  | cons f fs => rfl

theorem eq_nil_of_countEnds_zero {α : Type} :
    ∀ (es : List (StreamElement α)), countEnds es = 0 → endsLastB es = true → es = [] := by
  intro es
  induction es with
  | nil => intro _ _; rfl
  | cons e t ih =>
    intro hc hl
    cases t with
    | nil =>
      have he : e.isEnd = true := hl
      rw [countEnds_cons_isEnd he, countEnds_nil] at hc
      omega
    | cons f fs =>
      have hl' : endsLastB (f :: fs) = true := hl
      have hc' : countEnds (f :: fs) = 0 := by
        cases he : e.isEnd with
        | true => rw [countEnds_cons_isEnd he] at hc; omega
        | false => rw [countEnds_cons_ne he] at hc; exact hc
      exact absurd (ih hc' hl') (List.cons_ne_nil f fs)

theorem flatElems_nil {α : Type} : flatElems ([] : List (NetworkMessage α)) = [] := rfl

theorem flatElems_cons {α : Type} (m : NetworkMessage α) (ins : List (NetworkMessage α)) :
    flatElems (m :: ins) = m.elements ++ flatElems ins := rfl

theorem flatElems_eq_nil {α : Type} :
    ∀ (ins : List (NetworkMessage α)), (∀ m ∈ ins, m.elements ≠ []) →
      flatElems ins = [] → ins = [] := by
  intro ins hne h
  cases ins with
  | nil => rfl
  | cons m rest =>
    rw [flatElems_cons] at h
    exact absurd (List.append_eq_nil.mp h).1 (hne m (List.mem_cons_self m rest))

theorem nextGo_zero {α : Type} (buffer : List (StreamElement α)) (ins : List (NetworkMessage α)) :
    StartBlock.nextGo 0 buffer ins = Except.ok (StreamElement.End, 0, buffer, ins) := rfl

theorem nextGo_succ_cons {α : Type} (k : Nat) (x : StreamElement α) (b : List (StreamElement α))
    (ins : List (NetworkMessage α)) :
    StartBlock.nextGo (k + 1) (x :: b) ins =
      (if x.isEnd then StartBlock.nextGo k b ins else Except.ok (x, k + 1, b, ins)) := rfl

theorem nextGo_succ_nil_cons {α : Type} (k : Nat) (msg : NetworkMessage α)
    (rest : List (NetworkMessage α)) (x : StreamElement α) (t : List (StreamElement α))
    (hm : msg.elements = x :: t) :
    StartBlock.nextGo (k + 1) [] (msg :: rest) =
      (if x.isEnd then StartBlock.nextGo k t rest else Except.ok (x, k + 1, t, rest)) := by
  simp [StartBlock.nextGo, hm]

theorem nextGo_succ_nil_empty {α : Type} (k : Nat) (msg : NetworkMessage α)
    (rest : List (NetworkMessage α)) (hm : msg.elements = []) :
    StartBlock.nextGo (k + 1) [] (msg :: rest) = Except.error NextError.emptyMessage := by
  simp [StartBlock.nextGo, hm]

theorem nextGo_succ_step {α : Type} (k : Nat) (buffer : List (StreamElement α))
    (ins : List (NetworkMessage α)) (hne : ∀ m ∈ ins, m.elements ≠ [])
    (hnn : buffer ++ flatElems ins ≠ []) :
    ∃ x c ins₂,
      StartBlock.nextGo (k + 1) buffer ins =
        (if x.isEnd then StartBlock.nextGo k c ins₂ else Except.ok (x, k + 1, c, ins₂)) ∧
      buffer ++ flatElems ins = x :: (c ++ flatElems ins₂) ∧
      (∀ m ∈ ins₂, m.elements ≠ []) := by
  cases buffer with
  | cons x b => exact ⟨x, b, ins, nextGo_succ_cons k x b ins, by simp, hne⟩
  | nil =>
    cases ins with
    | nil => simp [flatElems] at hnn
    | cons msg rest =>
      have hm : msg.elements ≠ [] := hne msg (List.mem_cons_self msg rest)
      cases hms : msg.elements with
      | nil => exact absurd hms hm
      | cons x t =>
        refine ⟨x, t, rest, nextGo_succ_nil_cons k msg rest x t hms, ?_,
          fun m hm' => hne m (List.mem_cons_of_mem msg hm')⟩
        simp [flatElems_cons, hms]

theorem nextGo_spec {α : Type} (k : Nat) :
    ∀ (buffer : List (StreamElement α)) (ins : List (NetworkMessage α)),
      (∀ m ∈ ins, m.elements ≠ []) →
      countEnds (buffer ++ flatElems ins) = k →
      endsLastB (buffer ++ flatElems ins) = true →
      (StartBlock.nextGo k buffer ins =
          Except.ok (StreamElement.End, 0, ([] : List (StreamElement α)),
            ([] : List (NetworkMessage α))) ∧
        nonEnds (buffer ++ flatElems ins) = [])
      ∨ (∃ el k' buf' ins',
          StartBlock.nextGo k buffer ins = Except.ok (el, k', buf', ins') ∧
          el.isEnd = false ∧
          (∀ m ∈ ins', m.elements ≠ []) ∧
          countEnds (buf' ++ flatElems ins') = k' ∧
          endsLastB (buf' ++ flatElems ins') = true ∧
          nonEnds (buffer ++ flatElems ins) = el :: nonEnds (buf' ++ flatElems ins')) := by
  induction k with
  | zero =>
    intro buffer ins hne hcount hlast
    have hes : buffer ++ flatElems ins = [] :=
      eq_nil_of_countEnds_zero _ hcount hlast
    obtain ⟨hb, hf⟩ := List.append_eq_nil.mp hes
    have hi : ins = [] := flatElems_eq_nil ins hne hf
    subst hb; subst hi
    left
    exact ⟨nextGo_zero [] [], rfl⟩
  | succ k ih =>
    intro buffer ins hne hcount hlast
    have hnn : buffer ++ flatElems ins ≠ [] := by
      intro h0
      rw [h0, countEnds_nil] at hcount
      omega
    obtain ⟨x, c, ins₂, hstep, hes, hne₂⟩ := nextGo_succ_step k buffer ins hne hnn
    rw [hes] at hcount hlast
    rw [hstep, hes]
    cases hx : x.isEnd with
    | true =>
      rw [if_pos rfl]
      have hcount' : countEnds (c ++ flatElems ins₂) = k := by
        rw [countEnds_cons_isEnd hx] at hcount; omega
      have hlast' : endsLastB (c ++ flatElems ins₂) = true := by
        cases he : c ++ flatElems ins₂ with
        | nil => rfl
        | cons f fs =>
          rw [he] at hlast
          rw [endsLastB_cons_of_ne x (List.cons_ne_nil f fs)] at hlast
          exact hlast
      rcases ih c ins₂ hne₂ hcount' hlast' with ⟨hgo, hn⟩ |
        ⟨el, k', buf', ins', hgo, hel, hb', hc', hl', hnn'⟩
      · left
        exact ⟨hgo, by rw [nonEnds_cons_isEnd hx]; exact hn⟩
      · right
        exact ⟨el, k', buf', ins', hgo, hel, hb', hc', hl',
          by rw [nonEnds_cons_isEnd hx]; exact hnn'⟩
    | false =>
      rw [if_neg (by simp)]
      right
      have htail : c ++ flatElems ins₂ ≠ [] := by
        intro h0
        rw [h0] at hlast
        have : x.isEnd = true := hlast
        rw [hx] at this
        exact Bool.false_ne_true this
      refine ⟨x, k + 1, c, ins₂, rfl, hx, hne₂, ?_, ?_, ?_⟩
      · rw [countEnds_cons_ne hx] at hcount; exact hcount
      · cases he : c ++ flatElems ins₂ with
        | nil => exact absurd he htail
        | cons f fs =>
          rw [he] at hlast
          rw [endsLastB_cons_of_ne x (List.cons_ne_nil f fs)] at hlast
          exact hlast
      · rw [nonEnds_cons_ne hx]

theorem next_eq_of_zero {α : Type} {s : StartBlock α} {md : ExecutionMetadata}
    (hmd : s.metadata = some md) (h0 : s.missing_ends = 0) (ins : List (NetworkMessage α)) :
    s.next ins = Except.ok (StreamElement.End, s, ins) := by
  simp [StartBlock.next, hmd, h0]

theorem next_eq_of_pos {α : Type} {s : StartBlock α} {md : ExecutionMetadata}
    (hmd : s.metadata = some md) (hrc : s.receiver = some ()) (h0 : s.missing_ends ≠ 0)
    (ins : List (NetworkMessage α)) :
    s.next ins = (StartBlock.nextGo s.missing_ends s.buffer ins).map
      (fun out => match out with
        | (el, k, buf, ins') => (el, { s with missing_ends := k, buffer := buf }, ins')) := by
  simp [StartBlock.next, hmd, hrc, h0]

theorem run_spec {α : Type} :
    ∀ (fuel : Nat) (s : StartBlock α) (ins : List (NetworkMessage α)),
      s.metadata.isSome = true →
      s.receiver.isSome = true →
      (∀ m ∈ ins, m.elements ≠ []) →
      countEnds (s.buffer ++ flatElems ins) = s.missing_ends →
      endsLastB (s.buffer ++ flatElems ins) = true →
      (nonEnds (s.buffer ++ flatElems ins)).length < fuel →
      StartBlock.run fuel s ins = some (nonEnds (s.buffer ++ flatElems ins) ++ [StreamElement.End]) := by
  intro fuel
  induction fuel with
  | zero => intro s ins _ _ _ _ _ hf; omega
  | succ fuel ih =>
    intro s ins hmds hrcs hne hcount hlast hf
    obtain ⟨md, hmd⟩ := Option.isSome_iff_exists.mp hmds
    obtain ⟨u, hrcu⟩ := Option.isSome_iff_exists.mp hrcs
    have hrc : s.receiver = some () := by cases u; exact hrcu
    by_cases h0 : s.missing_ends = 0
    · have hes : s.buffer ++ flatElems ins = [] := by
        apply eq_nil_of_countEnds_zero _ _ hlast
        rw [hcount]; exact h0
      have h1 : s.next ins = Except.ok (StreamElement.End, s, ins) :=
        next_eq_of_zero hmd h0 ins
      simp [StartBlock.run, h1, StreamElement.isEnd, hes, nonEnds]
    · have h1 := next_eq_of_pos hmd hrc h0 ins
      rcases nextGo_spec s.missing_ends s.buffer ins hne hcount hlast with ⟨hgo, hn⟩ |
        ⟨el, k', buf', ins', hgo, hel, hb', hc', hl', hnn⟩
      · rw [hgo] at h1
        simp only [Except.map] at h1
        simp [StartBlock.run, h1, StreamElement.isEnd, hn]
      · rw [hgo] at h1
        simp only [Except.map] at h1
        have hlen : (nonEnds (buf' ++ flatElems ins')).length < fuel := by
          have : (nonEnds (s.buffer ++ flatElems ins)).length =
              (nonEnds (buf' ++ flatElems ins')).length + 1 := by
            rw [hnn]; rfl
          omega
        have hrun := ih { s with missing_ends := k', buffer := buf' } ins'
          (by simp [hmd]) (by simp [hrc]) hb' hc' hl' hlen
        simp [StartBlock.run, h1, hel]
        rw [hrun, hnn]
        simp

theorem watermarks_append {α : Type} (l1 l2 : List (StreamElement α)) :
    watermarks (l1 ++ l2) = watermarks l1 ++ watermarks l2 := by
  simp [watermarks, List.filterMap_append]

theorem watermarks_cons_none {α : Type} {e : StreamElement α}
    (h : e.watermarkOf = none) (t : List (StreamElement α)) :
    watermarks (e :: t) = watermarks t := by
  simp [watermarks, List.filterMap_cons, h]

theorem watermarks_cons_some {α : Type} {e : StreamElement α} {w : Int}
    (h : e.watermarkOf = some w) (t : List (StreamElement α)) :
    watermarks (e :: t) = w :: watermarks t := by
  simp [watermarks, List.filterMap_cons, h]

theorem watermarks_nonEnds {α : Type} :
    ∀ (es : List (StreamElement α)), watermarks (nonEnds es) = watermarks es := by
  intro es
  induction es with
  | nil => rfl
  | cons e t ih =>
    cases he : e.isEnd with
    | true =>
      have : e = StreamElement.End := isEnd_iff.mp he
      subst this
      rw [nonEnds_cons_isEnd he, ih,
        watermarks_cons_none (rfl : (StreamElement.End : StreamElement α).watermarkOf = none)]
    | false =>
      rw [nonEnds_cons_ne he]
      cases hw : e.watermarkOf with
      | none => rw [watermarks_cons_none hw, watermarks_cons_none hw, ih]
      | some w => rw [watermarks_cons_some hw, watermarks_cons_some hw, ih]

def coordA : Coord := ⟨0, 0, 0⟩

def coordB : Coord := ⟨1, 0, 0⟩

def coordC : Coord := ⟨2, 0, 0⟩

def metaZero : ExecutionMetadata := ⟨coordA, 0⟩

def metaOne : ExecutionMetadata := ⟨coordA, 1⟩

def metaTwo : ExecutionMetadata := ⟨coordA, 2⟩

def msgA : NetworkMessage Nat := ⟨coordB, [StreamElement.Item 10, StreamElement.End]⟩

def msgB : NetworkMessage Nat := ⟨coordC, [StreamElement.Item 20, StreamElement.End]⟩

/-- C1: `setup` initializes `missing_ends` to `metadata.num_prev`, and over any
complete upstream input — non-empty batches, exactly `num_prev` upstream `End`
markers, the last delivered element an `End` — repeated calls to `next` produce
exactly the non-`End` upstream elements followed by one single `End`: the first
`End` is returned only after all `num_prev` upstream `End`s have been consumed, and
no upstream `End` is itself forwarded downstream. -/
theorem startBlock_end_after_num_prev_ends {α : Type} (meta : ExecutionMetadata)
    (ins : List (NetworkMessage α)) (fuel : Nat)
    (hne : ∀ m ∈ ins, m.elements ≠ [])
    (hcount : countEnds (flatElems ins) = meta.num_prev)
    (hlast : endsLastB (flatElems ins) = true)
    (hfuel : (nonEnds (flatElems ins)).length < fuel) :
    ((StartBlock.new : StartBlock α).setup meta).missing_ends = meta.num_prev ∧
      StartBlock.run fuel ((StartBlock.new : StartBlock α).setup meta) ins =
        some (nonEnds (flatElems ins) ++ [StreamElement.End]) := by
  refine ⟨rfl, ?_⟩
  exact run_spec fuel ((StartBlock.new : StartBlock α).setup meta) ins rfl rfl hne hcount hlast hfuel

/-- C1 witness: two upstream replicas, each contributing one item and its `End`. -/
theorem startBlock_end_after_num_prev_ends_witness :
    ((StartBlock.new : StartBlock Nat).setup metaTwo).missing_ends = 2 ∧
      StartBlock.run 3 ((StartBlock.new : StartBlock Nat).setup metaTwo) [msgA, msgB] =
        some [StreamElement.Item 10, StreamElement.Item 20, StreamElement.End] := by
  exact startBlock_end_after_num_prev_ends metaTwo [msgA, msgB] 3
    (by decide) (by decide) (by decide) (by decide)

/-- A start block whose `missing_ends` counter is zero while its buffer still holds
an element. -/
def sBufEnd : StartBlock Nat := ⟨some metaZero, some (), [StreamElement.Item 7], 0⟩

/-- C2 counterexample: `next` returns `End` whenever `missing_ends == 0`, even
though the pending-element buffer is not empty, refuting the claimed equivalence
that `End` is returned exactly when `missing_ends == 0` and the buffer is empty. -/
theorem startBlock_next_end_with_nonempty_buffer :
    sBufEnd.next ([] : List (NetworkMessage Nat)) =
      Except.ok (StreamElement.End, sBufEnd, []) ∧
    sBufEnd.buffer ≠ [] ∧ sBufEnd.missing_ends = 0 := by
  refine ⟨rfl, by decide, rfl⟩

/-- C2 (amended): `next` returns `End` whenever `missing_ends == 0`, regardless of
the buffer contents; when `missing_ends ≠ 0` and the buffer holds elements the next
one is popped (an `End` at the front decrements `missing_ends` and recurses), and
only when the buffer is empty does `next` consume the receiver, appending the
received batch before popping. -/
theorem startBlock_next_cases {α : Type} (s : StartBlock α) (ins : List (NetworkMessage α)) :
    (∀ md, s.metadata = some md → s.missing_ends = 0 →
      s.next ins = Except.ok (StreamElement.End, s, ins)) ∧
    (∀ md el b, s.metadata = some md → s.receiver = some () → s.missing_ends ≠ 0 →
      s.buffer = el :: b → el.isEnd = false →
      s.next ins = Except.ok (el, { s with buffer := b }, ins)) ∧
    (∀ md b, s.metadata = some md → s.receiver = some () → s.missing_ends ≠ 0 →
      s.buffer = StreamElement.End :: b →
      s.next ins =
        StartBlock.next { s with buffer := b, missing_ends := s.missing_ends - 1 } ins) ∧
    (∀ md msg rest, s.metadata = some md → s.receiver = some () → s.missing_ends ≠ 0 →
      s.buffer = [] → msg.elements ≠ [] → ins = msg :: rest →
      s.next ins = StartBlock.next { s with buffer := msg.elements } rest) := by
  refine ⟨?_, ?_, ?_, ?_⟩
  · intro md hmd h0
    exact next_eq_of_zero hmd h0 ins
  · intro md el b hmd hrc h0 hb hel
    obtain ⟨k, hk⟩ := Nat.exists_eq_succ_of_ne_zero h0
    rw [next_eq_of_pos hmd hrc h0 ins, hb, hk, nextGo_succ_cons, if_neg (by simp [hel])]
    rfl
  · intro md b hmd hrc h0 hb
    obtain ⟨k, hk⟩ := Nat.exists_eq_succ_of_ne_zero h0
    have hsub : s.missing_ends - 1 = k := by omega
    rw [hsub, next_eq_of_pos hmd hrc h0 ins, hb, hk, nextGo_succ_cons,
      if_pos (show (StreamElement.End : StreamElement α).isEnd = true from rfl)]
    by_cases hk0 : k = 0
    · subst hk0
      rw [@next_eq_of_zero α { s with buffer := b, missing_ends := 0 } md hmd rfl ins,
        nextGo_zero]
      rfl
    · rw [@next_eq_of_pos α { s with buffer := b, missing_ends := k } md hmd hrc hk0 ins]
  · intro md msg rest hmd hrc h0 hb hmne hins
    obtain ⟨k, hk⟩ := Nat.exists_eq_succ_of_ne_zero h0
    cases hms : msg.elements with
    | nil => exact absurd hms hmne
    | cons x t =>
      subst hins
      rw [@next_eq_of_pos α { s with buffer := x :: t } md hmd hrc h0 rest,
        next_eq_of_pos hmd hrc h0 (msg :: rest), hb, hk,
        nextGo_succ_nil_cons k msg rest x t hms]
      dsimp only
      rw [nextGo_succ_cons]

/-- A start block with one pending upstream end and a non-end element buffered. -/
def sPopItem : StartBlock Nat := ⟨some metaOne, some (), [StreamElement.Item 3], 1⟩

/-- A start block with one pending upstream end and an `End` buffered. -/
def sPopEnd : StartBlock Nat := ⟨some metaOne, some (), [StreamElement.End], 1⟩

/-- A start block with one pending upstream end and an empty buffer. -/
def sAwait : StartBlock Nat := ⟨some metaOne, some (), [], 1⟩

/-- C2 witness: each of the four cases of `startBlock_next_cases` at a concrete
start-block state. -/
theorem startBlock_next_cases_witness :
    sBufEnd.next ([] : List (NetworkMessage Nat)) =
      Except.ok (StreamElement.End, sBufEnd, []) ∧
    sPopItem.next ([] : List (NetworkMessage Nat)) =
      Except.ok (StreamElement.Item 3, { sPopItem with buffer := [] }, []) ∧
    sPopEnd.next ([] : List (NetworkMessage Nat)) =
      StartBlock.next { sPopEnd with buffer := [], missing_ends := sPopEnd.missing_ends - 1 }
        [] ∧
    sAwait.next [msgA] = StartBlock.next { sAwait with buffer := msgA.elements } [] := by
  refine ⟨?_, ?_, ?_, ?_⟩
  · exact (startBlock_next_cases sBufEnd []).1 metaZero rfl rfl
  · exact (startBlock_next_cases sPopItem []).2.1 metaOne (StreamElement.Item 3) [] rfl rfl
      (by decide) rfl rfl
  · exact (startBlock_next_cases sPopEnd []).2.2.1 metaOne [] rfl rfl (by decide) rfl
  · exact (startBlock_next_cases sAwait [msgA]).2.2.2 metaOne msgA [] rfl rfl (by decide)
      rfl (by decide) rfl

/-- C3 (amended): the start block performs no watermark merging and keeps no
per-upstream-replica watermark state: over a complete upstream input, the watermark
timestamps it emits are exactly the upstream watermark timestamps in arrival order,
so the emitted sequence need not be (strictly) increasing. -/
theorem startBlock_forwards_watermarks_unmerged {α : Type} (meta : ExecutionMetadata)
    (ins : List (NetworkMessage α)) (fuel : Nat) (outs : List (StreamElement α))
    (hne : ∀ m ∈ ins, m.elements ≠ [])
    (hcount : countEnds (flatElems ins) = meta.num_prev)
    (hlast : endsLastB (flatElems ins) = true)
    (hfuel : (nonEnds (flatElems ins)).length < fuel)
    (hrun : StartBlock.run fuel ((StartBlock.new : StartBlock α).setup meta) ins = some outs) :
    watermarks outs = watermarks (flatElems ins) := by
  have h := run_spec fuel ((StartBlock.new : StartBlock α).setup meta) ins rfl rfl
    hne hcount hlast hfuel
  have hb0 : ((StartBlock.new : StartBlock α).setup meta).buffer ++ flatElems ins =
      flatElems ins := rfl
  rw [hb0, hrun] at h
  have houts := Option.some.inj h
  rw [houts, watermarks_append, watermarks_nonEnds,
    watermarks_cons_none (rfl : (StreamElement.End : StreamElement α).watermarkOf = none)]
  simp [watermarks]

/-- A single upstream batch whose watermarks regress from 5 to 3. -/
def msgWm : NetworkMessage Nat :=
  ⟨coordB, [StreamElement.Watermark 5, StreamElement.Watermark 3, StreamElement.End]⟩

/-- C3 counterexample: a single upstream replica delivers `Watermark 5` and then
`Watermark 3`; the start block forwards both unchanged, so the emitted watermark
timestamps are `[5, 3]` — the second watermark is emitted although the merged
minimum did not strictly increase, and the emitted sequence is not increasing. -/
theorem startBlock_watermark_regression :
    StartBlock.run 3 ((StartBlock.new : StartBlock Nat).setup metaOne) [msgWm] =
      some [StreamElement.Watermark 5, StreamElement.Watermark 3, StreamElement.End] ∧
    watermarks [StreamElement.Watermark (5 : Int), StreamElement.Watermark 3,
      (StreamElement.End : StreamElement Nat)] = [5, 3] ∧
    ¬ (5 : Int) < 3 := by
  refine ⟨rfl, rfl, by decide⟩

/-- C3 witness: the amended forwarding theorem at the concrete regressing input. -/
theorem startBlock_forwards_watermarks_unmerged_witness :
    watermarks [StreamElement.Watermark (5 : Int), StreamElement.Watermark 3,
        (StreamElement.End : StreamElement Nat)] =
      watermarks (flatElems [msgWm]) := by
  exact startBlock_forwards_watermarks_unmerged metaOne [msgWm] 3
    [StreamElement.Watermark 5, StreamElement.Watermark 3, StreamElement.End]
    (by decide) (by decide) (by decide) (by decide) rfl

theorem nextGo_ne_emptyMessage {α : Type} :
    ∀ (k : Nat) (buffer : List (StreamElement α)) (ins : List (NetworkMessage α)),
      (∀ m ∈ ins, m.elements ≠ []) →
      StartBlock.nextGo k buffer ins ≠ Except.error NextError.emptyMessage := by
  intro k
  induction k with
  | zero =>
    intro buffer ins _ h
    rw [nextGo_zero] at h
    exact Except.noConfusion h
  | succ k ih =>
    intro buffer ins hne h
    cases buffer with
    | cons x b =>
      rw [nextGo_succ_cons] at h
      cases hx : x.isEnd with
      | true =>
        rw [if_pos hx] at h
        exact ih b ins hne h
      | false =>
        rw [if_neg (by simp [hx])] at h
        exact Except.noConfusion h
    | nil =>
      cases ins with
      | nil =>
        rw [show StartBlock.nextGo (k + 1) ([] : List (StreamElement α))
            ([] : List (NetworkMessage α)) = Except.error NextError.recvStuck from rfl] at h
        simp at h
      | cons msg rest =>
        have hm := hne msg (List.mem_cons_self msg rest)
        cases hms : msg.elements with
        | nil => exact absurd hms hm
        | cons x t =>
          rw [nextGo_succ_nil_cons k msg rest x t hms] at h
          cases hx : x.isEnd with
          | true =>
            rw [if_pos hx] at h
            exact ih t rest (fun m hm' => hne m (List.mem_cons_of_mem msg hm')) h
          | false =>
            rw [if_neg (by simp [hx])] at h
            exact Except.noConfusion h

/-- C9: if the start block has to receive and the upstream delivers an empty batch,
`next` fails with the `Previous block sent an empty message` abort; and whenever
every delivered batch is non-empty this abort branch is unreachable, so batch
non-emptiness is a precondition making the `expect` safe. -/
theorem startBlock_empty_message_panic {α : Type} (s : StartBlock α)
    (ins : List (NetworkMessage α)) :
    (∀ md sender rest, s.metadata = some md → s.receiver = some () → s.missing_ends ≠ 0 →
      s.buffer = [] → ins = { sender := sender, elements := [] } :: rest →
      s.next ins = Except.error NextError.emptyMessage) ∧
    ((∀ m ∈ ins, m.elements ≠ []) → s.next ins ≠ Except.error NextError.emptyMessage) := by
  constructor
  · intro md sender rest hmd hrc h0 hb hins
    obtain ⟨k, hk⟩ := Nat.exists_eq_succ_of_ne_zero h0
    rw [next_eq_of_pos hmd hrc h0 ins, hb, hk, hins,
      nextGo_succ_nil_empty k { sender := sender, elements := [] } rest rfl]
    rfl
  · intro hne h
    cases hmd : s.metadata with
    | none => simp [StartBlock.next, hmd] at h
    | some md =>
      by_cases h0 : s.missing_ends = 0
      · rw [next_eq_of_zero hmd h0 ins] at h
        exact Except.noConfusion h
      · cases hrc : s.receiver with
        | none => simp [StartBlock.next, hmd, h0, hrc] at h
        | some u =>
          have hrc' : s.receiver = some () := by cases u; exact hrc
          rw [next_eq_of_pos hmd hrc' h0 ins] at h
          cases hgo : StartBlock.nextGo s.missing_ends s.buffer ins with
          | ok v =>
            rw [hgo] at h
            exact Except.noConfusion h
          | error e =>
            rw [hgo] at h
            simp only [Except.map] at h
            have he : e = NextError.emptyMessage := by
              cases h'' : h
              rfl
            exact nextGo_ne_emptyMessage s.missing_ends s.buffer ins hne (he ▸ hgo)

/-- An upstream batch with no elements. -/
def msgEmpty : NetworkMessage Nat := ⟨coordB, []⟩

/-- C9 witness: the abort fires on an empty batch and cannot fire on non-empty
batches, at a concrete start-block state. -/
theorem startBlock_empty_message_panic_witness :
    sAwait.next [msgEmpty] = Except.error NextError.emptyMessage ∧
    sAwait.next [msgA] ≠ Except.error NextError.emptyMessage := by
  constructor
  · exact (startBlock_empty_message_panic sAwait [msgEmpty]).1 metaOne coordB []
      rfl rfl (by decide) rfl rfl
  · exact (startBlock_empty_message_panic sAwait [msgA]).2 (by decide)

/-- C10: `clone` aborts (`Cannot clone once initialized`) exactly when the metadata
has been set, and otherwise returns a fresh uninitialized start block: no metadata,
no receiver, empty buffer, `missing_ends = 0`. -/
theorem startBlock_clone_uninitialized_only {α : Type} (s : StartBlock α) :
    (s.metadata.isSome = true → s.clone = none) ∧
    (s.metadata = none →
      s.clone =
        some { metadata := none, receiver := none, buffer := [], missing_ends := 0 }) := by
  constructor
  · intro h
    simp [StartBlock.clone, h]
  · intro h
    simp [StartBlock.clone, h]

/-- A start block that has been initialized by `setup`. -/
def sInit : StartBlock Nat := (StartBlock.new : StartBlock Nat).setup metaOne

/-- C10 witness: cloning an initialized block aborts; cloning a fresh block yields
the fresh uninitialized state. -/
theorem startBlock_clone_uninitialized_only_witness :
    sInit.clone = none ∧
      (StartBlock.new : StartBlock Nat).clone =
        some { metadata := none, receiver := none, buffer := [], missing_ends := 0 } := by
  exact ⟨(startBlock_clone_uninitialized_only sInit).1 rfl,
    (startBlock_clone_uninitialized_only (StartBlock.new : StartBlock Nat)).2 rfl⟩

/-- C4: every channel underlying a `NetworkReceiver`, and the one built by
`local_channel`, is created as a bounded FIFO with capacity `CHANNEL_CAPACITY = 64`,
regardless of the `size` argument supplied to `local_channel`. -/
theorem network_channel_capacity_is_64 {α : Type} (size : Nat) (ep : ReceiverEndpoint) :
    CHANNEL_CAPACITY = 64 ∧
    (@local_channel α size).2.capacity = 64 ∧
    (@NetworkReceiver.new α ep).receiver.capacity = 64 :=
  ⟨rfl, rfl, rfl⟩

/-- C5: `NetworkSender::send` returns `Ok` whenever the underlying connection is
alive, and otherwise the only error it returns is `NetworkSendError::Disconnected`
carrying that sender's own `ReceiverEndpoint`. -/
theorem network_sender_send_disconnected_iff {α : Type} (s : NetworkSender α)
    (m : NetworkMessage α) :
    (s.send m).1 =
      (if s.sender.isConnected then Except.ok ()
       else Except.error (NetworkSendError.Disconnected s.receiver_endpoint)) := by
  cases s with
  | mk ep impl =>
    cases impl with
    | Local sd =>
      cases sd with
      | mk c => cases c <;> rfl
    | Remote sd =>
      cases sd with
      | mk c => cases c <;> rfl

/-- C6: `NetworkSender::send` always records
`items_out(message.sender, endpoint.coord, num_items)` on the profiler, and each of
`recv`, `try_recv` and `recv_timeout` on a `NetworkReceiver`, upon receiving a
message, records `items_in(message.sender, endpoint.coord, num_items)`. -/
theorem network_profiler_items_in_out {α : Type} (s : NetworkSender α)
    (r : NetworkReceiver α) (m : NetworkMessage α) (rc : Receiver (NetworkMessage α)) :
    ((s.send m).2 =
      [ProfilerEvent.items_out m.sender s.receiver_endpoint.coord m.num_items]) ∧
    (r.receiver.recv = some (Except.ok (m, rc)) →
      r.recv = some (Except.ok (m, rc),
        [ProfilerEvent.items_in m.sender r.receiver_endpoint.coord m.num_items])) ∧
    (r.receiver.try_recv = Except.ok (m, rc) →
      r.try_recv = (Except.ok (m, rc),
        [ProfilerEvent.items_in m.sender r.receiver_endpoint.coord m.num_items])) ∧
    (r.receiver.recv_timeout = Except.ok (m, rc) →
      r.recv_timeout = (Except.ok (m, rc),
        [ProfilerEvent.items_in m.sender r.receiver_endpoint.coord m.num_items])) := by
  refine ⟨rfl, ?_, ?_, ?_⟩
  · intro h
    simp [NetworkReceiver.recv, NetworkReceiver.profile_message, h]
  · intro h
    simp [NetworkReceiver.try_recv, NetworkReceiver.profile_message, h]
  · intro h
    simp [NetworkReceiver.recv_timeout, NetworkReceiver.profile_message, h]

/-- A concrete receiver endpoint. -/
def epW : ReceiverEndpoint := ⟨coordA, 1⟩

/-- A network receiver whose queue holds one pending message. -/
def rcvFull : NetworkReceiver Nat := ⟨epW, ⟨64, [msgA], true⟩⟩

/-- The underlying channel receiver of `rcvFull` after one receive. -/
def rcAfter : Receiver (NetworkMessage Nat) := ⟨64, [], true⟩

/-- A connected local network sender. -/
def sndLocal : NetworkSender Nat := ⟨epW, NetworkSenderImpl.Local ⟨true⟩⟩

/-- C6 witness: the profiler calls at a concrete sender, receiver and message. -/
theorem network_profiler_items_in_out_witness :
    ((sndLocal.send msgA).2 =
      [ProfilerEvent.items_out msgA.sender epW.coord msgA.num_items]) ∧
    rcvFull.recv = some (Except.ok (msgA, rcAfter),
      [ProfilerEvent.items_in msgA.sender epW.coord msgA.num_items]) ∧
    rcvFull.try_recv = (Except.ok (msgA, rcAfter),
      [ProfilerEvent.items_in msgA.sender epW.coord msgA.num_items]) ∧
    rcvFull.recv_timeout = (Except.ok (msgA, rcAfter),
      [ProfilerEvent.items_in msgA.sender epW.coord msgA.num_items]) := by
  have h := network_profiler_items_in_out sndLocal rcvFull msgA rcAfter
  exact ⟨h.1, h.2.1 rfl, h.2.2.1 rfl, h.2.2.2 rfl⟩

theorem validateHosts_ok_of_good :
    ∀ (hosts : List HostConfig),
      (∀ h ∈ hosts, (h.ssh.password.isSome && h.ssh.key_file.isSome) = false) →
      ∀ i, RuntimeConfig.validateHosts i hosts = Except.ok () := by
  intro hosts
  induction hosts with
  | nil => intro _ i; rfl
  | cons host rest ih =>
    intro h i
    have hh := h host (List.mem_cons_self host rest)
    simp [RuntimeConfig.validateHosts, hh]
    exact ih (fun x hx => h x (List.mem_cons_of_mem host hx)) (i + 1)

theorem validateHosts_err_of_bad :
    ∀ (hosts : List HostConfig),
      (∃ h ∈ hosts, (h.ssh.password.isSome && h.ssh.key_file.isSome) = true) →
      ∀ i, ∃ msg, RuntimeConfig.validateHosts i hosts =
        Except.error (ConfigError.Invalid msg) := by
  intro hosts
  induction hosts with
  | nil =>
    intro h i
    obtain ⟨x, hx, _⟩ := h
    exact absurd hx (List.not_mem_nil x)
  | cons host rest ih =>
    intro h i
    cases hb : (host.ssh.password.isSome && host.ssh.key_file.isSome) with
    | true =>
      refine ⟨"Malformed configuration: cannot specify both password and key file on host "
        ++ toString i ++ ": " ++ host.address, ?_⟩
      simp [RuntimeConfig.validateHosts, hb]
    | false =>
      obtain ⟨x, hx, hxb⟩ := h
      rcases List.mem_cons.mp hx with rfl | hx'
      · rw [hb] at hxb
        exact Bool.noConfusion hxb
      · obtain ⟨msg, hm⟩ := ih ⟨x, hx', hxb⟩ (i + 1)
        refine ⟨msg, ?_⟩
        simp [RuntimeConfig.validateHosts, hb]
        exact hm

/-- C7: `RuntimeConfig::remote` fails with an `Invalid` configuration error whenever
some host specifies both an SSH password and an SSH key file; when every host
specifies at most one of the two, this validation passes and `remote` proceeds to
resolve the host id from the environment. -/
theorem remote_config_ssh_validation (cfg : RemoteConfig) (env : Option String) :
    ((∃ h ∈ cfg.hosts, (h.ssh.password.isSome && h.ssh.key_file.isSome) = true) →
      ∃ msg, RuntimeConfig.remote cfg env =
        Except.error (RemoteError.config (ConfigError.Invalid msg))) ∧
    ((∀ h ∈ cfg.hosts, (h.ssh.password.isSome && h.ssh.key_file.isSome) = false) →
      RuntimeConfig.remote cfg env =
        match RuntimeConfig.host_id_from_env env cfg.hosts.length with
        | Except.error msg => Except.error (RemoteError.panicked msg)
        | Except.ok host_id =>
          Except.ok (RuntimeConfig.Remote { cfg with host_id := host_id })) := by
  constructor
  · intro h
    obtain ⟨msg, hm⟩ := validateHosts_err_of_bad cfg.hosts h 0
    exact ⟨msg, by simp [RuntimeConfig.remote, hm]⟩
  · intro h
    have hok := validateHosts_ok_of_good cfg.hosts h 0
    simp [RuntimeConfig.remote, hok]

/-- SSH settings giving both a password and a key file. -/
def sshBoth : SSHConfig := ⟨22, none, some "pw", some "keyfile", none⟩

/-- SSH settings giving only a key file. -/
def sshKeyOnly : SSHConfig := ⟨22, none, none, some "keyfile", none⟩

/-- A host whose SSH settings are contradictory. -/
def hostBoth : HostConfig := ⟨"host1", 9500, 4, sshBoth, none⟩

/-- A host whose SSH settings are valid. -/
def hostKeyOnly : HostConfig := ⟨"host2", 9500, 4, sshKeyOnly, none⟩

/-- A remote configuration with a contradictory host. -/
def cfgBoth : RemoteConfig := ⟨none, [hostBoth], none, false⟩

/-- A remote configuration whose hosts are all valid. -/
def cfgKeyOnly : RemoteConfig := ⟨none, [hostKeyOnly], none, false⟩

/-- C7 witness: the validation fails on the contradictory configuration and passes
on the valid one. -/
theorem remote_config_ssh_validation_witness :
    (∃ msg, RuntimeConfig.remote cfgBoth none =
      Except.error (RemoteError.config (ConfigError.Invalid msg))) ∧
    RuntimeConfig.remote cfgKeyOnly none =
      Except.ok (RuntimeConfig.Remote { cfgKeyOnly with host_id := none }) := by
  constructor
  · exact (remote_config_ssh_validation cfgBoth none).1
      ⟨hostBoth, List.mem_cons_self hostBoth [], rfl⟩
  · exact (remote_config_ssh_validation cfgKeyOnly none).2 (by decide)

/-- C8: `host_id_from_env` yields no host id when `NOIR_HOST_ID` is absent; an
unparsable value, or a parsed value at least `num_hosts`, is fatal at startup; a
parsed value in `[0, num_hosts)` is returned as the host id. -/
theorem host_id_env_validation (num_hosts : Nat) (v : String) :
    (RuntimeConfig.host_id_from_env none num_hosts = Except.ok none) ∧
    (HostId.from_str v = none →
      ∃ msg, RuntimeConfig.host_id_from_env (some v) num_hosts = Except.error msg) ∧
    (∀ hid, HostId.from_str v = some hid → num_hosts ≤ hid →
      ∃ msg, RuntimeConfig.host_id_from_env (some v) num_hosts = Except.error msg) ∧
    (∀ hid, HostId.from_str v = some hid → hid < num_hosts →
      RuntimeConfig.host_id_from_env (some v) num_hosts = Except.ok (some hid)) := by
  refine ⟨rfl, ?_, ?_, ?_⟩
  · intro h
    refine ⟨"Invalid value for environment NOIR_HOST_ID: parse error", ?_⟩
    simp [RuntimeConfig.host_id_from_env, h]
  · intro hid h hge
    refine ⟨"Invalid value for environment NOIR_HOST_ID: value too large, max possible is "
      ++ toString (num_hosts - 1), ?_⟩
    simp only [RuntimeConfig.host_id_from_env, h]
    rw [if_pos hge]
  · intro hid h hlt
    simp only [RuntimeConfig.host_id_from_env, h]
    rw [if_neg (by omega)]

/-- C8 witness: absent variable, unparsable value, out-of-range value and in-range
value, with two configured hosts. -/
theorem host_id_env_validation_witness :
    RuntimeConfig.host_id_from_env none 2 = Except.ok none ∧
    (∃ msg, RuntimeConfig.host_id_from_env (some "abc") 2 = Except.error msg) ∧
    (∃ msg, RuntimeConfig.host_id_from_env (some "5") 2 = Except.error msg) ∧
    RuntimeConfig.host_id_from_env (some "1") 2 = Except.ok (some 1) := by
  refine ⟨(host_id_env_validation 2 "abc").1, (host_id_env_validation 2 "abc").2.1 ?_,
    (host_id_env_validation 2 "5").2.2.1 5 ?_ ?_, (host_id_env_validation 2 "1").2.2.2 1 ?_ ?_⟩
  · decide
  · decide
  · decide
  · decide
  · decide
